import Mathlib

/-!
Verification development for the nodenurse operational scripts: the NCCL
bandwidth scout (ncclscout.py), the capacity-topology reporter
(bin/runcaptopreport.py) and the two instance taggers (tagunhealthy.py,
bin/tagunhealthy.py).  Python strings are embedded as `List Char`, Python
floats as `ℚ`, Python dicts as insertion-ordered association lists, and the
outside world (subprocesses, SSH probes, the cloud API) as explicit outcome
parameters.
-/

set_option autoImplicit false

namespace Nodenurse

/-! ### Python string primitives on `List Char` -/

/-- Whitespace characters recognised by Python `str.strip` / `str.split`
(ASCII subset). -/
def isPyWs (c : Char) : Bool :=
  c = ' ' || c = '\t' || c = '\n' || c = '\x0d' || c = '\x0b' || c = '\x0c'

/-- Python `str.strip()`: drop leading and trailing whitespace. -/
def trimL (l : List Char) : List Char :=
  ((l.dropWhile isPyWs).reverse.dropWhile isPyWs).reverse

/-- Python `str.lower()` (ASCII). -/
def lowerize (l : List Char) : List Char :=
  l.map Char.toLower

/-- Python `needle in hay` substring containment. -/
def containsSub (needle hay : List Char) : Bool :=
  hay.tails.any (fun t => needle.isPrefixOf t)

/-- Python `str.split()` with no argument: split on whitespace runs,
discarding empty fields. -/
def splitWs (l : List Char) : List (List Char) :=
  (l.splitOnP isPyWs).filter (fun w => !w.isEmpty)

/-- `columns[-2]` guarded by `len(columns) >= 2`: the second-to-last element
when it exists. -/
def secondLast {α : Type} (l : List α) : Option α :=
  match l.reverse with
  | _ :: t :: _ => some t
  | _ => none

/-- Python `s.replace('.', '', 1)`: remove the first dot, if any. -/
def removeFirstDot : List Char → List Char
  | [] => []
  | c :: cs => if c = '.' then cs else c :: removeFirstDot cs

/-- Python `str.isdigit` on one character: true for the decimal digits (the
Unicode Nd class, modelled here by its ASCII subset) and also for
digit characters that are not decimal (Numeric_Type=Digit, modelled here by
the superscript digits '⁰'-'⁹'), which `float` does not accept. -/
def pyIsDigit (c : Char) : Bool :=
  c.isDigit ||
    ['⁰', '¹', '²', '³', '⁴', '⁵', '⁶', '⁷', '⁸', '⁹'].contains c

/-- The numeric test of ncclscout.py line 146:
`columns[-2].replace('.', '', 1).isdigit()` (Python `isdigit` is false on
the empty string). -/
def numericTok (t : List Char) : Bool :=
  !(removeFirstDot t).isEmpty && (removeFirstDot t).all pyIsDigit

/-- Split a token at its first dot, returning the parts before and after;
`none` when there is no dot. -/
def splitAtDot : List Char → Option (List Char × List Char)
  | [] => none
  | c :: cs =>
    if c = '.' then some ([], cs)
    else (splitAtDot cs).map (fun p => (c :: p.1, p.2))

/-- Numeric value of a digit string. -/
def digitsVal (l : List Char) : ℚ :=
  ((l.foldl (fun a c => 10 * a + (c.toNat - 48)) 0 : ℕ) : ℚ)

/-- Python `float(token)` modelled on the decimal grammar
`[digits] [. digits]` with at least one digit overall, where the digits
must be decimal (the Nd class, modelled by its ASCII subset): a
non-decimal digit character such as '²' makes `float` raise.  `none`
models a raised `ValueError`. -/
def pyFloatQ (t : List Char) : Option ℚ :=
  match splitAtDot t with
  | none =>
    if !t.isEmpty && t.all Char.isDigit then some (digitsVal t) else none
  | some (ip, fp) =>
    if !(ip ++ fp).isEmpty && ip.all Char.isDigit && fp.all Char.isDigit then
      some (digitsVal ip + digitsVal fp / (10 : ℚ) ^ fp.length)
    else none

/-! ### run_nccl_test output parsing (ncclscout.py lines 136-154) -/

/-- The line-skipping conditions of the parse loop, applied to the stripped
line: blank, comment (`#`), `"UTC" in line`,
`line.lower().startswith("fri")`, `"mpi" in line.lower()`. -/
def skipLine (l : List Char) : Bool :=
  l.isEmpty || (['#'].isPrefixOf l) ||
  containsSub ['U', 'T', 'C'] l ||
  (['f', 'r', 'i'].isPrefixOf (lowerize l)) ||
  containsSub ['m', 'p', 'i'] (lowerize l)

/-- The parse loop of run_nccl_test: strip each line, skip the filtered
lines, and break on the first line whose second-to-last whitespace field
passes the numeric test, yielding that field. -/
def extractBandwidthTok : List (List Char) → Option (List Char)
  | [] => none
  | ln :: rest =>
    let l := trimL ln
    if skipLine l then extractBandwidthTok rest
    else
      match secondLast (splitWs l) with
      | some t => if numericTok t then some t else extractBandwidthTok rest
      | none => extractBandwidthTok rest

/-- run_nccl_test on a captured stdout: split on newlines, find the valid
line's second-to-last field, convert it with `float` (a `ValueError` is
caught and yields `none`, like every other failure). -/
def parseBandwidth (out : List Char) : Option ℚ :=
  match extractBandwidthTok (out.splitOn '\n') with
  | some t => pyFloatQ t
  | none => none

/-- Restatement of the spec's parser description: drop skipped lines, then
take the first remaining line whose second-to-last whitespace field is
numeric and return that field. -/
def specBandwidthTok (lines : List (List Char)) : Option (List Char) :=
  (((lines.map trimL).filter (fun l => !skipLine l)).find?
    (fun l =>
      match secondLast (splitWs l) with
      | some t => numericTok t
      | none => false)).bind
    (fun l => secondLast (splitWs l))

/-! ### run_nccl_test control flow (ncclscout.py lines 125-164) -/

/-- Exceptions the `try` block of run_nccl_test can surface. -/
inductive PyExc where
  | timeoutExpired
  | calledProcessError
  | valueError
deriving DecidableEq, Repr

/-- Outcome of the benchmark subprocess launched by run_nccl_test. -/
inductive NcclOutcome where
  | completed (stdout : List Char)
  | timeoutExpired
  | calledProcessError
deriving DecidableEq, Repr

/-- The `try` block of run_nccl_test: on a completed subprocess, parse the
output (a missing valid line returns `none`; a failing `float` raises
`ValueError`); a timeout or non-zero exit raises the corresponding
exception. -/
def ncclTryBody : NcclOutcome → Except PyExc (Option ℚ)
  | .completed out =>
    match extractBandwidthTok (out.splitOn '\n') with
    | none => .ok none
    | some t =>
      match pyFloatQ t with
      | some q => .ok (some q)
      | none => .error .valueError
  | .timeoutExpired => .error .timeoutExpired
  | .calledProcessError => .error .calledProcessError

/-- The three `except` clauses of run_nccl_test: each caught exception logs
and falls through to the trailing `return None`. -/
def ncclHandle : Except PyExc (Option ℚ) → Option ℚ
  | .ok r => r
  | .error _ => none

/-- run_nccl_test, as (returned bandwidth, temp-hosts-file removed): the
`finally` block deletes the temporary file on every path out of the
function. -/
def runNcclTest (o : NcclOutcome) : Option ℚ × Bool :=
  (ncclHandle (ncclTryBody o), true)

/-- The caller's treatment of a run_nccl_test result (ncclscout.py lines
263-264 and 372-373): record the bandwidth only when it is not `None`. -/
def addResult (results : List ((String × String) × ℚ)) (pair : String × String)
    (r : Option ℚ) : List ((String × String) × ℚ) :=
  match r with
  | some bw => results ++ [(pair, bw)]
  | none => results

/-! ### Reachability check (ncclscout.py lines 67-95) -/

/-- Result of one SSH connectivity probe: reachable, a non-zero SSH exit
(`CalledProcessError`, caught inside check_host_reachability), or any other
exception (caught around `future.result()`). -/
inductive ProbeResult where
  | reachable
  | unreachable
  | errored
deriving DecidableEq, Repr

/-- check_and_return inside check_hosts_concurrently: the host when its
probe succeeds, else `None`; a probe exception likewise contributes no
host. -/
def checkAndReturn (probe : String → ProbeResult) (h : String) : Option String :=
  match probe h with
  | .reachable => some h
  | .unreachable => none
  | .errored => none

/-- check_hosts_concurrently: futures complete in an arbitrary order
(`order`, a permutation of the submitted hosts) and each non-`None`,
non-raising result is appended. -/
def checkHostsConcurrently (probe : String → ProbeResult) (order : List String) :
    List String :=
  order.filterMap (checkAndReturn probe)

/-! ### Pair formation (ncclscout.py lines 246 and 345) -/

/-- `l[::2]`: the elements at even indices. -/
def evensL {α : Type} : List α → List α
  | [] => []
  | [a] => [a]
  | a :: _ :: rest => a :: evensL rest

/-- `l[1::2]`: the elements at odd indices. -/
def oddsL {α : Type} (l : List α) : List α :=
  evensL (l.drop 1)

/-- `zip(reachable_hosts[::2], reachable_hosts[1::2])`: consecutive disjoint
pairs, used identically by the serial and the parallel path. -/
def pairUp {α : Type} (l : List α) : List (α × α) :=
  (evensL l).zip (oddsL l)

/-! ### Good/bad classification (ncclscout.py lines 274-275 and 381-390) -/

/-- Serial path, line 274: the set comprehension over `results` against the
single variable `threshold` (membership model of the Python set). -/
def goodNodesSerial (results : List ((String × String) × ℚ)) (threshold : ℚ) :
    List String :=
  (results.filter (fun pr => threshold ≤ pr.2)).flatMap (fun pr => [pr.1.1, pr.1.2])

/-- Serial path, line 275: hosts of pairs strictly below `threshold`. -/
def badNodesSerial (results : List ((String × String) × ℚ)) (threshold : ℚ) :
    List String :=
  (results.filter (fun pr => pr.2 < threshold)).flatMap (fun pr => [pr.1.1, pr.1.2])

/-- Parallel path, line 383: `thresholds.get((host1, host2), 0)`. -/
def pairThreshold (thresholds : List ((String × String) × ℚ))
    (p : String × String) : ℚ :=
  (thresholds.lookup p).getD 0

/-- Parallel path, lines 387-388: hosts of pairs meeting their own pair's
threshold. -/
def goodNodesParallel (results thresholds : List ((String × String) × ℚ)) :
    List String :=
  (results.filter (fun pr => pairThreshold thresholds pr.1 ≤ pr.2)).flatMap
    (fun pr => [pr.1.1, pr.1.2])

/-- Parallel path, lines 389-390: hosts of pairs below their own pair's
threshold. -/
def badNodesParallel (results thresholds : List ((String × String) × ℚ)) :
    List String :=
  (results.filter (fun pr => pr.2 < pairThreshold thresholds pr.1)).flatMap
    (fun pr => [pr.1.1, pr.1.2])

/-- The serial testing loop (ncclscout.py lines 243-264) viewed per
non-skipped iteration: each element carries the pair, the pair's
`min(threshold1, threshold2)`, and the run_nccl_test outcome.  The fold
returns the accumulated `results` dict and the final value of the loop-local
`threshold` variable (`none` while it is still unbound). -/
def serialLoop (tests : List ((String × String) × ℚ × Option ℚ)) :
    List ((String × String) × ℚ) × Option ℚ :=
  tests.foldl
    (fun acc t => (addResult acc.1 t.1 t.2.2, some t.2.1))
    ([], none)

/-! ### Capacity-topology reporter (bin/runcaptopreport.py lines 24-46) -/

/-- One bare-metal host record from the topology API, with the fields the
report loop reads. -/
structure BareMetalHost where
  id : String
  instanceShape : String
  lifecycleDetails : String
  instanceId : Option String
deriving DecidableEq, Repr

/-- The two sequential reclassification `if`s of the report loop, returning
the final `status` and whether the node was appended to `repair_nodes`. -/
def classifyNode (node : BareMetalHost) : String × Bool :=
  let s0 := node.lifecycleDetails
  let s1 :=
    if s0 = "AVAILABLE" then
      if node.instanceId.isSome then "RUNNING" else "AVAILABLE"
    else s0
  if s1 = "UNAVAILABLE" || s1 = "DEGRADED" then
    if node.instanceId.isSome then ("RUNNING", false) else ("IN_REPAIR", true)
  else (s1, false)

/-- `state_counts[status] += 1` with Python-dict insertion order: increment
an existing key, otherwise append it with count 1. -/
def bumpCount (counts : List (String × Nat)) (k : String) : List (String × Nat) :=
  if (counts.lookup k).isSome then
    counts.map (fun p => if p.1 = k then (p.1, p.2 + 1) else p)
  else counts ++ [(k, 1)]

/-- The whole report loop: returns (`state_counts`, `count`,
`repair_nodes` ids) after folding over the fetched records. -/
def runReport (nodes : List BareMetalHost) :
    List (String × Nat) × Nat × List String :=
  nodes.foldl
    (fun acc node =>
      let c := classifyNode node
      (bumpCount acc.1 c.1, acc.2.1 + 1,
        if c.2 then acc.2.2 ++ [node.id] else acc.2.2))
    ([], 0, [])

/-- The topology of the end-to-end scenario: 10 hosts, 6 AVAILABLE with no
attached instance, 3 AVAILABLE with one, 1 DEGRADED with none. -/
def sampleTopology : List BareMetalHost :=
  [⟨"n1", "BM.GPU.H100.8", "AVAILABLE", none⟩,
   ⟨"n2", "BM.GPU.H100.8", "AVAILABLE", none⟩,
   ⟨"n3", "BM.GPU.H100.8", "AVAILABLE", none⟩,
   ⟨"n4", "BM.GPU.H100.8", "AVAILABLE", none⟩,
   ⟨"n5", "BM.GPU.H100.8", "AVAILABLE", none⟩,
   ⟨"n6", "BM.GPU.H100.8", "AVAILABLE", none⟩,
   ⟨"n7", "BM.GPU.H100.8", "AVAILABLE", some "i7"⟩,
   ⟨"n8", "BM.GPU.H100.8", "AVAILABLE", some "i8"⟩,
   ⟨"n9", "BM.GPU.H100.8", "AVAILABLE", some "i9"⟩,
   ⟨"n10", "BM.GPU.H100.8", "DEGRADED", none⟩]

/-! ### Instance tagger (tagunhealthy.py lines 28-33, bin/tagunhealthy.py
lines 98-104) -/

/-- A `defined_tags` value: namespace name to inner key/value map, both
insertion-ordered Python dicts. -/
abbrev DefinedTags : Type := List (String × List (String × String))

/-- Python top-level `dict.update` with a single key: replace the whole
value bound to the key, or append the binding when the key is new. -/
def dictUpdate1 (d : DefinedTags) (k : String) (v : List (String × String)) :
    DefinedTags :=
  if (List.lookup k d).isSome then
    d.map (fun p => if p.1 = k then (k, v) else p)
  else d ++ [(k, v)]

/-- The tag merge both taggers perform:
`tags.update({'ComputeInstanceHostActions':
{'CustomerReportedHostStatus': 'unhealthy'}})`. -/
def mergeUnhealthyTag (tags : DefinedTags) : DefinedTags :=
  dictUpdate1 tags "ComputeInstanceHostActions"
    [("CustomerReportedHostStatus", "unhealthy")]

/-- Value of a tag key inside a namespace of a `defined_tags` dict. -/
def tagValue (tags : DefinedTags) (ns k : String) : Option String :=
  (List.lookup ns tags).bind (fun inner => List.lookup k inner)

/-! ### Process exit codes -/

/-- Outcome of the module-level cloud-API interaction of a script. -/
inductive ApiOutcome where
  | ok
  | serviceError
deriving DecidableEq, Repr

/-- Exit code of tagunhealthy.py (the root variant): its `except
oci.exceptions.ServiceError` clause only prints, so the script falls off the
end and the interpreter exits 0 either way. -/
def tagRootExitCode (r : ApiOutcome) : Nat :=
  match r with
  | .ok => 0
  | .serviceError => 0

/-- Exit code of the tagging block of bin/tagunhealthy.py (lines 98-108):
its handler calls `sys.exit(1)`. -/
def tagBinExitCode (r : ApiOutcome) : Nat :=
  match r with
  | .ok => 0
  | .serviceError => 1

/-- Exit code of checktags in bin/tagunhealthy.py: `sys.exit(1)` when the
namespace or the tag key is missing, `sys.exit(0)` when both are found. -/
def checktagsExitCode (namespaceFound tagFound : Bool) : Nat :=
  if !namespaceFound then 1
  else if !tagFound then 1
  else 0

/-- Exit code of bin/runcaptopreport.py: the whole body is one `try` whose
`except Exception` clause calls `sys.exit(1)`. -/
def captopExitCode (r : ApiOutcome) : Nat :=
  match r with
  | .ok => 0
  | .serviceError => 1

/-- The reachable-host guard of find_bad_nodes_serial / _parallel (lines
238-240 and 339-341): with fewer than two reachable hosts the function
prints and plain-returns, so main ends and the interpreter exits 0; the
value records (proceeded?, exit code when stopping here). -/
def scoutShortageGuard (reachable : List String) : Bool × Nat :=
  if reachable.length < 2 then (false, 0) else (true, 0)

/-! ### Association-list helper lemmas -/

theorem lookup_append_of_none {α β : Type} [DecidableEq α]
    (d e : List (α × β)) (k : α) (hnone : List.lookup k d = none) :
    List.lookup k (d ++ e) = List.lookup k e := by
  induction d with
  | nil => rfl
  | cons p t ih =>
    rw [List.lookup_cons] at hnone
    rw [List.cons_append, List.lookup_cons]
    rcases hb : (k == p.1) with _ | _
    · rw [hb] at hnone
      exact ih hnone
    · rw [hb] at hnone
      exact absurd hnone (by simp)

theorem lookup_map_replace {β : Type} (d : List (String × β)) (k ns : String)
    (v : β) (hne : ns ≠ k) :
    List.lookup ns (d.map (fun p => if p.1 = k then (k, v) else p)) =
      List.lookup ns d := by
  induction d with
  | nil => rfl
  | cons p t ih =>
    simp only [List.map_cons]
    by_cases hk : p.1 = k
    · rw [if_pos hk, List.lookup_cons, List.lookup_cons]
      have h1 : (ns == k) = false := by simp [hne]
      have h2 : (ns == p.1) = false := by simp [hk ▸ hne]
      rw [h1, h2]
      exact ih
    · rw [if_neg hk, List.lookup_cons, List.lookup_cons]
      rcases hb : (ns == p.1) with _ | _
      · exact ih
      · rfl

theorem lookup_map_replace_self {β : Type} (d : List (String × β)) (k : String)
    (v : β) (hmem : (List.lookup k d).isSome) :
    List.lookup k (d.map (fun p => if p.1 = k then (k, v) else p)) = some v := by
  induction d with
  | nil => simp at hmem
  | cons p t ih =>
    rw [List.lookup_cons] at hmem
    simp only [List.map_cons]
    by_cases hk : p.1 = k
    · rw [if_pos hk, List.lookup_cons]
      simp
    · rw [if_neg hk, List.lookup_cons]
      have hb : (k == p.1) = false := by
        simp only [beq_eq_false_iff_ne, ne_eq]
        exact fun he => hk he.symm
      rw [hb] at hmem
      rw [hb]
      exact ih hmem

theorem lookup_dictUpdate1_self (d : DefinedTags) (k : String)
    (v : List (String × String)) :
    List.lookup k (dictUpdate1 d k v) = some v := by
  unfold dictUpdate1
  by_cases hmem : (List.lookup k d).isSome
  · rw [if_pos hmem]
    exact lookup_map_replace_self d k v hmem
  · rw [if_neg hmem]
    rw [lookup_append_of_none d [(k, v)] k
      (Option.not_isSome_iff_eq_none.mp hmem)]
    simp [List.lookup_cons]

theorem lookup_dictUpdate1_other (d : DefinedTags) (k ns : String)
    (v : List (String × String)) (hne : ns ≠ k) :
    List.lookup ns (dictUpdate1 d k v) = List.lookup ns d := by
  unfold dictUpdate1
  by_cases hmem : (List.lookup k d).isSome
  · rw [if_pos hmem]
    exact lookup_map_replace d k ns v hne
  · rw [if_neg hmem]
    induction d with
    | nil =>
      have hb : (ns == k) = false := by simp [hne]
      simp only [List.nil_append, List.lookup_cons, hb]
    | cons p t ih =>
      rw [List.cons_append, List.lookup_cons, List.lookup_cons]
      rcases hb : (ns == p.1) with _ | _
      · rw [List.lookup_cons] at hmem
        rcases hkb : (k == p.1) with _ | _
        · rw [hkb] at hmem
          exact ih hmem
        · rw [hkb] at hmem
          simp at hmem
      · rfl

/-! ### Claim C1: capacity-topology report on the 10-host scenario -/

/-- C1 (counterexample): on the 10-host topology (6 AVAILABLE without an
instance, 3 AVAILABLE with one, 1 DEGRADED without one) the report's state
counts contain no "UNAVAILABLE_DEGRADED" entry at all, so the claimed counts
{AVAILABLE: 6, RUNNING: 3, UNAVAILABLE_DEGRADED: 1} are wrong. -/
theorem c1_no_unavailable_degraded_entry :
    List.lookup "UNAVAILABLE_DEGRADED" (runReport sampleTopology).1 = none ∧
      (runReport sampleTopology).2.1 = 10 := by
  constructor <;> rfl

/-- C1 (amended): the reporter maps the DEGRADED host with no attached
instance to "IN_REPAIR", so the run produces state counts
{AVAILABLE: 6, RUNNING: 3, IN_REPAIR: 1}, a total of 10, and lists the
degraded host for repair. -/
theorem c1_report_sample_counts :
    runReport sampleTopology =
      ([("AVAILABLE", 6), ("RUNNING", 3), ("IN_REPAIR", 1)], 10, ["n10"]) := by
  rfl

/-! ### Claim C2: exit codes of the tools -/

/-- C2 (counterexample): two caught-error paths exit 0, not 1: the root
tagger's ServiceError handler only prints, and the scout's
too-few-reachable-hosts guard plain-returns. -/
theorem c2_caught_paths_exit_zero :
    tagRootExitCode ApiOutcome.serviceError ≠ 1 ∧
      (scoutShortageGuard ["host1"]).2 ≠ 1 := by
  constructor <;> decide

/-- C2 (amended): the reporter and the bin tagger exit 1 on a caught API
error, and tag verification failure exits 1; but the root tagger exits 0
even on a caught ServiceError, and the scout exits 0 when there are too few
reachable hosts; success always exits 0. -/
theorem c2_exit_codes :
    captopExitCode ApiOutcome.serviceError = 1 ∧
      tagBinExitCode ApiOutcome.serviceError = 1 ∧
      (∀ nsF tagF : Bool,
        (checktagsExitCode nsF tagF = 0 ↔ nsF = true ∧ tagF = true)) ∧
      (∀ r : ApiOutcome, tagRootExitCode r = 0) ∧
      (∀ hosts : List String, hosts.length < 2 →
        scoutShortageGuard hosts = (false, 0)) ∧
      captopExitCode ApiOutcome.ok = 0 ∧ tagBinExitCode ApiOutcome.ok = 0 := by
  refine ⟨rfl, rfl, ?_, ?_, ?_, rfl, rfl⟩
  · intro nsF tagF
    cases nsF <;> cases tagF <;> simp [checktagsExitCode]
  · intro r
    cases r <;> rfl
  · intro hosts h
    simp [scoutShortageGuard, h]

/-- C2 (witness): a single reachable host trips the shortage guard, which
stops the run with exit code 0. -/
theorem c2_exit_codes_witness :
    (["h1"] : List String).length < 2 ∧ scoutShortageGuard ["h1"] = (false, 0) :=
  ⟨by decide, c2_exit_codes.2.2.2.2.1 ["h1"] (by decide)⟩

/-! ### Claim C6: run_nccl_test failure handling -/

/-- C6: run_nccl_test converts every timeout, non-zero exit and parse error
to a `none` return instead of propagating it, the caller records no entry
for a `none` result, and the temporary host file is removed on every path
out of the function. -/
theorem c6_run_nccl_failures (o : NcclOutcome)
    (results : List ((String × String) × ℚ)) (pair : String × String) :
    (runNcclTest o).2 = true ∧
      (∀ e : PyExc, ncclHandle (Except.error e) = none) ∧
      ((o = NcclOutcome.timeoutExpired ∨ o = NcclOutcome.calledProcessError) →
        (runNcclTest o).1 = none ∧
          addResult results pair (runNcclTest o).1 = results) := by
  refine ⟨rfl, fun e => rfl, ?_⟩
  rintro (rfl | rfl) <;> exact ⟨rfl, rfl⟩

/-- C6 (witness): a timed-out benchmark yields no result, adds no entry to
the results dict, and still removes the temporary host file. -/
theorem c6_run_nccl_failures_witness :
    (runNcclTest NcclOutcome.timeoutExpired).1 = none ∧
      addResult [] ("h1", "h2") (runNcclTest NcclOutcome.timeoutExpired).1 = [] :=
  (c6_run_nccl_failures NcclOutcome.timeoutExpired [] ("h1", "h2")).2.2
    (Or.inl rfl)

/-! ### Claim C7: frame effect of the tag merge -/

/-- C7 (counterexample): a defined tag under another key of the same
namespace ComputeInstanceHostActions is present before the merge and gone
after it, so the claimed preservation of sibling keys fails. -/
theorem c7_sibling_key_dropped :
    tagValue [("ComputeInstanceHostActions", [("OtherKey", "x")])]
        "ComputeInstanceHostActions" "OtherKey" = some "x" ∧
      tagValue
          (mergeUnhealthyTag
            [("ComputeInstanceHostActions", [("OtherKey", "x")])])
          "ComputeInstanceHostActions" "OtherKey" = none := by
  constructor <;> rfl

/-- C7 (amended): the merge replaces the whole ComputeInstanceHostActions
namespace map with {CustomerReportedHostStatus: unhealthy} — dropping any
other keys it held — while tags under every other namespace are preserved
unchanged. -/
theorem c7_merge_frame (tags : DefinedTags) (ns : String)
    (hne : ns ≠ "ComputeInstanceHostActions") :
    List.lookup "ComputeInstanceHostActions" (mergeUnhealthyTag tags) =
        some [("CustomerReportedHostStatus", "unhealthy")] ∧
      List.lookup ns (mergeUnhealthyTag tags) = List.lookup ns tags :=
  ⟨lookup_dictUpdate1_self tags "ComputeInstanceHostActions"
      [("CustomerReportedHostStatus", "unhealthy")],
    lookup_dictUpdate1_other tags "ComputeInstanceHostActions" ns
      [("CustomerReportedHostStatus", "unhealthy")] hne⟩

/-- C7 (witness): merging into a tag set holding only an unrelated namespace
installs the unhealthy marker and leaves the other namespace intact. -/
theorem c7_merge_frame_witness :
    ("Oracle-Tags" : String) ≠ "ComputeInstanceHostActions" ∧
      List.lookup "ComputeInstanceHostActions"
          (mergeUnhealthyTag [("Oracle-Tags", [("CreatedBy", "me")])]) =
        some [("CustomerReportedHostStatus", "unhealthy")] ∧
      List.lookup "Oracle-Tags"
          (mergeUnhealthyTag [("Oracle-Tags", [("CreatedBy", "me")])]) =
        List.lookup "Oracle-Tags" [("Oracle-Tags", [("CreatedBy", "me")])] :=
  ⟨by decide,
    (c7_merge_frame [("Oracle-Tags", [("CreatedBy", "me")])] "Oracle-Tags"
      (by decide)).1,
    (c7_merge_frame [("Oracle-Tags", [("CreatedBy", "me")])] "Oracle-Tags"
      (by decide)).2⟩

/-! ### Claim C8: reachability checker output -/

theorem checkAndReturn_eq_some {probe : String → ProbeResult} {a h : String}
    (hfa : checkAndReturn probe a = some h) :
    a = h ∧ probe a = ProbeResult.reachable := by
  unfold checkAndReturn at hfa
  rcases hp : probe a with _ | _ | _ <;> rw [hp] at hfa
  · exact ⟨Option.some.inj hfa, rfl⟩
  · exact absurd hfa (by simp)
  · exact absurd hfa (by simp)

/-- C8: whatever order the probe futures complete in, the reachability
checker returns only hosts from its input list, and never one whose probe
failed (unreachable or raising). -/
theorem c8_reachability (hosts order : List String)
    (probe : String → ProbeResult) (hperm : order.Perm hosts) :
    (∀ h ∈ checkHostsConcurrently probe order, h ∈ hosts) ∧
      (∀ h ∈ checkHostsConcurrently probe order,
        probe h = ProbeResult.reachable) := by
  constructor <;> intro h hmem <;>
    rcases List.mem_filterMap.mp hmem with ⟨a, ha, hfa⟩ <;>
    rcases checkAndReturn_eq_some hfa with ⟨rfl, hr⟩
  · exact hperm.mem_iff.mp ha
  · exact hr

/-- C8 (witness): with hosts [a, b], completion order [b, a], and only a
reachable, the checker returns a subset of the input made of reachable
hosts only. -/
theorem c8_reachability_witness :
    (["b", "a"] : List String).Perm ["a", "b"] ∧
      (∀ h ∈ checkHostsConcurrently
          (fun x => if x = "a" then ProbeResult.reachable
            else ProbeResult.unreachable) ["b", "a"],
        h ∈ (["a", "b"] : List String)) ∧
      (∀ h ∈ checkHostsConcurrently
          (fun x => if x = "a" then ProbeResult.reachable
            else ProbeResult.unreachable) ["b", "a"],
        (fun x => if x = "a" then ProbeResult.reachable
          else ProbeResult.unreachable) h = ProbeResult.reachable) :=
  ⟨by decide,
    (c8_reachability ["a", "b"] ["b", "a"] _ (by decide)).1,
    (c8_reachability ["a", "b"] ["b", "a"] _ (by decide)).2⟩

/-! ### Membership in the good/bad sets -/

theorem mem_flatMap_pair {results : List ((String × String) × ℚ)}
    {p : (String × String) × ℚ → Bool} {h : String} :
    h ∈ (results.filter p).flatMap (fun pr => [pr.1.1, pr.1.2]) ↔
      ∃ pr ∈ results, p pr = true ∧ (h = pr.1.1 ∨ h = pr.1.2) := by
  simp only [List.mem_flatMap, List.mem_filter, List.mem_cons,
    List.not_mem_nil, or_false]
  constructor
  · rintro ⟨pr, ⟨hm, hp⟩, hh⟩
    exact ⟨pr, hm, hp, hh⟩
  · rintro ⟨pr, hm, hp, hh⟩
    exact ⟨pr, ⟨hm, hp⟩, hh⟩

theorem mem_goodNodesSerial {results : List ((String × String) × ℚ)} {θ : ℚ}
    {h : String} :
    h ∈ goodNodesSerial results θ ↔
      ∃ p bw, (p, bw) ∈ results ∧ (h = p.1 ∨ h = p.2) ∧ θ ≤ bw := by
  unfold goodNodesSerial
  rw [mem_flatMap_pair]
  constructor
  · rintro ⟨pr, hm, hp, hh⟩
    exact ⟨pr.1, pr.2, by simpa using hm, hh, of_decide_eq_true hp⟩
  · rintro ⟨p, bw, hm, hside, hθ⟩
    exact ⟨(p, bw), hm, decide_eq_true hθ, hside⟩

theorem mem_badNodesSerial {results : List ((String × String) × ℚ)} {θ : ℚ}
    {h : String} :
    h ∈ badNodesSerial results θ ↔
      ∃ p bw, (p, bw) ∈ results ∧ (h = p.1 ∨ h = p.2) ∧ bw < θ := by
  unfold badNodesSerial
  rw [mem_flatMap_pair]
  constructor
  · rintro ⟨pr, hm, hp, hh⟩
    exact ⟨pr.1, pr.2, by simpa using hm, hh, of_decide_eq_true hp⟩
  · rintro ⟨p, bw, hm, hside, hθ⟩
    exact ⟨(p, bw), hm, decide_eq_true hθ, hside⟩

theorem mem_goodNodesParallel
    {results thresholds : List ((String × String) × ℚ)} {h : String} :
    h ∈ goodNodesParallel results thresholds ↔
      ∃ p bw, (p, bw) ∈ results ∧ (h = p.1 ∨ h = p.2) ∧
        pairThreshold thresholds p ≤ bw := by
  unfold goodNodesParallel
  rw [mem_flatMap_pair]
  constructor
  · rintro ⟨pr, hm, hp, hh⟩
    exact ⟨pr.1, pr.2, by simpa using hm, hh, of_decide_eq_true hp⟩
  · rintro ⟨p, bw, hm, hside, hθ⟩
    exact ⟨(p, bw), hm, decide_eq_true hθ, hside⟩

theorem mem_badNodesParallel
    {results thresholds : List ((String × String) × ℚ)} {h : String} :
    h ∈ badNodesParallel results thresholds ↔
      ∃ p bw, (p, bw) ∈ results ∧ (h = p.1 ∨ h = p.2) ∧
        bw < pairThreshold thresholds p := by
  unfold badNodesParallel
  rw [mem_flatMap_pair]
  constructor
  · rintro ⟨pr, hm, hp, hh⟩
    exact ⟨pr.1, pr.2, by simpa using hm, hh, of_decide_eq_true hp⟩
  · rintro ⟨p, bw, hm, hside, hθ⟩
    exact ⟨(p, bw), hm, decide_eq_true hθ, hside⟩

/-! ### Claim C3: good/bad classification of tested pairs -/

/-- C3 (counterexample): on a serial run over two pairs with different
applicable thresholds — ("a","b") at 185 measuring 200, then ("c","d") at
365 measuring 300 — the loop leaves `threshold` at 365, and host "a" is not
placed in the good-set although its own pair met its applicable threshold
(200 ≥ 185), contradicting the claim for the serial path. -/
theorem c3_serial_ignores_pair_threshold :
    (serialLoop [(("a", "b"), (185 : ℚ), some 200),
        (("c", "d"), 365, some 300)]).2 = some 365 ∧
      (serialLoop [(("a", "b"), (185 : ℚ), some 200),
          (("c", "d"), 365, some 300)]).1 =
        [(("a", "b"), 200), (("c", "d"), 300)] ∧
      (185 : ℚ) ≤ 200 ∧
      "a" ∉ goodNodesSerial [(("a", "b"), (200 : ℚ)), (("c", "d"), 300)] 365 := by
  refine ⟨by decide, by decide, by decide, by decide⟩

/-- C3 (amended): in the parallel path a host is in the good-set iff one of
its tested pairs measured at or above that pair's own threshold and in the
bad-set iff one measured below it, so a host with mixed results lands in
both; in the serial path the same holds but with every pair judged against
the single threshold left over from the last tested pair instead of the
threshold applicable to that pair. -/
theorem c3_classification (results thresholds : List ((String × String) × ℚ))
    (θ : ℚ) (h : String) :
    (h ∈ goodNodesParallel results thresholds ↔
        ∃ p bw, (p, bw) ∈ results ∧ (h = p.1 ∨ h = p.2) ∧
          pairThreshold thresholds p ≤ bw) ∧
      (h ∈ badNodesParallel results thresholds ↔
        ∃ p bw, (p, bw) ∈ results ∧ (h = p.1 ∨ h = p.2) ∧
          bw < pairThreshold thresholds p) ∧
      (h ∈ goodNodesSerial results θ ↔
        ∃ p bw, (p, bw) ∈ results ∧ (h = p.1 ∨ h = p.2) ∧ θ ≤ bw) ∧
      (h ∈ badNodesSerial results θ ↔
        ∃ p bw, (p, bw) ∈ results ∧ (h = p.1 ∨ h = p.2) ∧ bw < θ) ∧
      ("x" ∈ goodNodesParallel [(("x", "y"), 200), (("x", "z"), 100)]
          [(("x", "y"), 185), (("x", "z"), 185)] ∧
        "x" ∈ badNodesParallel [(("x", "y"), 200), (("x", "z"), 100)]
          [(("x", "y"), 185), (("x", "z"), 185)]) :=
  ⟨mem_goodNodesParallel, mem_badNodesParallel, mem_goodNodesSerial,
    mem_badNodesSerial, by decide, by decide⟩

/-! ### Pair formation lemmas -/

theorem evensL_cons {α : Type} (x : α) (t : List α) :
    evensL (x :: t) = x :: evensL (t.drop 1) := by
  cases t <;> rfl

theorem pairUp_cons_cons {α : Type} (a b : α) (t : List α) :
    pairUp (a :: b :: t) = (a, b) :: pairUp t := by
  simp [pairUp, oddsL, evensL_cons]

theorem pairUp_nil {α : Type} : pairUp ([] : List α) = [] := rfl

theorem pairUp_single {α : Type} (a : α) : pairUp [a] = [] := rfl

theorem mem_pairUp {α : Type} :
    ∀ (l : List α) (p : α × α), p ∈ pairUp l → p.1 ∈ l ∧ p.2 ∈ l
  | [], p, hp => absurd hp (by simp [pairUp_nil])
  | [a], p, hp => absurd hp (by simp [pairUp_single])
  | a :: b :: t, p, hp => by
    rw [pairUp_cons_cons] at hp
    rcases List.mem_cons.mp hp with h | h
    · subst h
      exact ⟨List.mem_cons_self _ _,
        List.mem_cons_of_mem _ (List.mem_cons_self _ _)⟩
    · have hm := mem_pairUp t p h
      exact ⟨List.mem_cons_of_mem _ (List.mem_cons_of_mem _ hm.1),
        List.mem_cons_of_mem _ (List.mem_cons_of_mem _ hm.2)⟩

theorem pairUp_touch_inj {α : Type} :
    ∀ (l : List α), l.Nodup → ∀ (p q : α × α) (x : α), p ∈ pairUp l →
      q ∈ pairUp l → (x = p.1 ∨ x = p.2) → (x = q.1 ∨ x = q.2) → p = q
  | [], _, p, q, x, hp, _, _, _ => absurd hp (by simp [pairUp_nil])
  | [a], _, p, q, x, hp, _, _, _ => absurd hp (by simp [pairUp_single])
  | a :: b :: t, hnd, p, q, x, hp, hq, hxp, hxq => by
    rw [pairUp_cons_cons] at hp hq
    have hab : a ∉ b :: t ∧ (b :: t).Nodup := List.nodup_cons.mp hnd
    have hbt : b ∉ t ∧ t.Nodup := List.nodup_cons.mp hab.2
    have hat : a ∉ t := fun hmem => hab.1 (List.mem_cons_of_mem _ hmem)
    rcases List.mem_cons.mp hp with h1 | h1 <;>
      rcases List.mem_cons.mp hq with h2 | h2
    · rw [h1, h2]
    · exfalso
      have hq' := mem_pairUp t q h2
      rw [h1] at hxp
      rcases hxp with rfl | rfl
      · rcases hxq with he | he
        · exact hat (he ▸ hq'.1)
        · exact hat (he ▸ hq'.2)
      · rcases hxq with he | he
        · exact hbt.1 (he ▸ hq'.1)
        · exact hbt.1 (he ▸ hq'.2)
    · exfalso
      have hp' := mem_pairUp t p h1
      rw [h2] at hxq
      rcases hxq with rfl | rfl
      · rcases hxp with he | he
        · exact hat (he ▸ hp'.1)
        · exact hat (he ▸ hp'.2)
      · rcases hxp with he | he
        · exact hbt.1 (he ▸ hp'.1)
        · exact hbt.1 (he ▸ hp'.2)
    · exact pairUp_touch_inj t hbt.2 p q x h1 h2 hxp hxq

theorem pairUp_length {α : Type} : ∀ l : List α, (pairUp l).length = l.length / 2
  | [] => by simp [pairUp_nil]
  | [_] => by simp [pairUp_single]
  | a :: b :: t => by
    rw [pairUp_cons_cons]
    simp only [List.length_cons]
    rw [pairUp_length t]
    omega

theorem pairUp_dropLast_of_odd {α : Type} :
    ∀ l : List α, l.length % 2 = 1 → pairUp l = pairUp l.dropLast
  | [], h => by simp at h
  | [a], _ => by rw [pairUp_single]; rfl
  | a :: b :: t, h => by
    have ht : t.length % 2 = 1 := by
      simp only [List.length_cons] at h
      omega
    have htne : t ≠ [] := by
      intro he
      rw [he] at ht
      simp at ht
    obtain ⟨c, r, rfl⟩ : ∃ c r, t = c :: r := by
      cases t with
      | nil => exact absurd rfl htne
      | cons c r => exact ⟨c, r, rfl⟩
    rw [pairUp_cons_cons]
    have hdl : (a :: b :: c :: r).dropLast = a :: b :: (c :: r).dropLast := by
      simp [List.dropLast]
    rw [hdl, pairUp_cons_cons, pairUp_dropLast_of_odd (c :: r) ht]

theorem value_unique_of_nodup_keys {α β : Type} :
    ∀ {L : List (α × β)}, (L.map Prod.fst).Nodup → ∀ {p : α} {a b : β},
      (p, a) ∈ L → (p, b) ∈ L → a = b := by
  intro L
  induction L with
  | nil => intro _ p a b ha _; cases ha
  | cons q t ih =>
    intro hnd p a b ha hb
    simp only [List.map_cons, List.nodup_cons] at hnd
    rcases List.mem_cons.mp ha with h1 | h1 <;>
      rcases List.mem_cons.mp hb with h2 | h2
    · rw [← h1] at h2
      exact (Prod.mk.injEq _ _ _ _).mp h2.symm |>.2
    · exfalso
      apply hnd.1
      have hq1 : q.1 = p := by rw [← h1]
      rw [hq1]
      exact List.mem_map_of_mem Prod.fst h2
    · exfalso
      apply hnd.1
      have hq1 : q.1 = p := by rw [← h2]
      rw [hq1]
      exact List.mem_map_of_mem Prod.fst h1
    · exact ih hnd.2 h1 h2

/-! ### Claim C4: a host lands in at most one set -/

/-- C4: when the tested pairs come from the consecutive-disjoint pairing of
a duplicate-free reachable list (as both scout paths produce) and the
results dict has one entry per pair, every host appears in at most one of
the good-set and the bad-set, in the serial and the parallel
classification alike. -/
theorem c4_at_most_one_set (l : List String)
    (results thresholds : List ((String × String) × ℚ)) (θ : ℚ) (h : String)
    (hnd : l.Nodup) (hkeys : (results.map Prod.fst).Nodup)
    (hsub : ∀ p ∈ results.map Prod.fst, p ∈ pairUp l) :
    ¬(h ∈ goodNodesSerial results θ ∧ h ∈ badNodesSerial results θ) ∧
      ¬(h ∈ goodNodesParallel results thresholds ∧
        h ∈ badNodesParallel results thresholds) := by
  constructor
  · rintro ⟨hg, hb⟩
    rcases mem_goodNodesSerial.mp hg with ⟨p, bw, hm, hs, hle⟩
    rcases mem_badNodesSerial.mp hb with ⟨q, bw', hm', hs', hlt⟩
    have hpq : p = q :=
      pairUp_touch_inj l hnd p q h
        (hsub p (List.mem_map_of_mem Prod.fst hm))
        (hsub q (List.mem_map_of_mem Prod.fst hm')) hs hs'
    rw [← hpq] at hm'
    have hbw : bw = bw' := value_unique_of_nodup_keys hkeys hm hm'
    rw [← hbw] at hlt
    exact absurd (lt_of_le_of_lt hle hlt) (lt_irrefl θ)
  · rintro ⟨hg, hb⟩
    rcases mem_goodNodesParallel.mp hg with ⟨p, bw, hm, hs, hle⟩
    rcases mem_badNodesParallel.mp hb with ⟨q, bw', hm', hs', hlt⟩
    have hpq : p = q :=
      pairUp_touch_inj l hnd p q h
        (hsub p (List.mem_map_of_mem Prod.fst hm))
        (hsub q (List.mem_map_of_mem Prod.fst hm')) hs hs'
    rw [← hpq] at hm' hlt
    have hbw : bw = bw' := value_unique_of_nodup_keys hkeys hm hm'
    rw [← hbw] at hlt
    exact absurd (lt_of_le_of_lt hle hlt) (lt_irrefl _)

/-- C4 (witness): a four-host run with one good and one bad pair puts host
"a" in at most one set. -/
theorem c4_at_most_one_set_witness :
    (["a", "b", "c", "d"] : List String).Nodup ∧
      (([(("a", "b"), (200 : ℚ)), (("c", "d"), 100)].map Prod.fst)).Nodup ∧
      (∀ p ∈ [(("a", "b"), (200 : ℚ)), (("c", "d"), 100)].map Prod.fst,
        p ∈ pairUp ["a", "b", "c", "d"]) ∧
      ¬("a" ∈ goodNodesSerial [(("a", "b"), (200 : ℚ)), (("c", "d"), 100)] 185 ∧
        "a" ∈ badNodesSerial [(("a", "b"), (200 : ℚ)), (("c", "d"), 100)] 185) :=
  ⟨by decide, by decide, by decide,
    (c4_at_most_one_set ["a", "b", "c", "d"]
      [(("a", "b"), (200 : ℚ)), (("c", "d"), 100)] [] 185 "a"
      (by decide) (by decide) (by decide)).1⟩

/-! ### Claim C9: consecutive disjoint pairing -/

/-- C9: both scout paths form test pairs as `zip(l[::2], l[1::2])` — (1st,
2nd), (3rd, 4th), ... — giving exactly `⌊n/2⌋` pairs, and when the
reachable list has odd length and no duplicates its last host appears in no
pair. -/
theorem c9_pairing (l : List String) :
    pairUp ([] : List String) = [] ∧
      (∀ a : String, pairUp [a] = []) ∧
      (∀ (a b : String) (t : List String),
        pairUp (a :: b :: t) = (a, b) :: pairUp t) ∧
      (pairUp l).length = l.length / 2 ∧
      (l.length % 2 = 1 → l.Nodup → ∀ p ∈ pairUp l,
        some p.1 ≠ l.getLast? ∧ some p.2 ≠ l.getLast?) := by
  refine ⟨pairUp_nil, pairUp_single, pairUp_cons_cons, pairUp_length l, ?_⟩
  intro hodd hnd p hp
  have hne : l ≠ [] := by
    intro he
    rw [he] at hodd
    simp at hodd
  rw [pairUp_dropLast_of_odd l hodd] at hp
  have hmem := mem_pairUp _ _ hp
  have happ : (l.dropLast ++ [l.getLast hne]).Nodup := by
    rw [List.dropLast_append_getLast hne]
    exact hnd
  have hdisj := (List.nodup_append.mp happ).2.2
  have hnin : l.getLast hne ∉ l.dropLast := by
    intro hmem'
    exact hdisj hmem' (List.mem_singleton_self _)
  have hlast : l.getLast? = some (l.getLast hne) := List.getLast?_eq_getLast l hne
  constructor
  · rw [hlast]
    intro he
    exact hnin (Option.some.inj he ▸ hmem.1)
  · rw [hlast]
    intro he
    exact hnin (Option.some.inj he ▸ hmem.2)

/-- C9 (witness): three duplicate-free hosts pair up as [(1st, 2nd)] and
keep the last host out of every pair. -/
theorem c9_pairing_witness :
    (["a", "b", "c"] : List String).length % 2 = 1 ∧
      (["a", "b", "c"] : List String).Nodup ∧
      (∀ p ∈ pairUp (["a", "b", "c"] : List String),
        some p.1 ≠ (["a", "b", "c"] : List String).getLast? ∧
          some p.2 ≠ (["a", "b", "c"] : List String).getLast?) :=
  ⟨by decide, by decide,
    (c9_pairing ["a", "b", "c"]).2.2.2.2 (by decide) (by decide)⟩

/-! ### Parse-loop step lemmas -/

theorem extract_cons_skip {ln : List Char} {rest : List (List Char)}
    (hs : skipLine (trimL ln) = true) :
    extractBandwidthTok (ln :: rest) = extractBandwidthTok rest := by
  simp [extractBandwidthTok, hs]

theorem extract_cons_nosecond {ln : List Char} {rest : List (List Char)}
    (hs : skipLine (trimL ln) = false)
    (hn : secondLast (splitWs (trimL ln)) = none) :
    extractBandwidthTok (ln :: rest) = extractBandwidthTok rest := by
  simp [extractBandwidthTok, hs, hn]

theorem extract_cons_badtok {ln t : List Char} {rest : List (List Char)}
    (hs : skipLine (trimL ln) = false)
    (ht : secondLast (splitWs (trimL ln)) = some t)
    (hnum : numericTok t = false) :
    extractBandwidthTok (ln :: rest) = extractBandwidthTok rest := by
  simp [extractBandwidthTok, hs, ht, hnum]

theorem extract_cons_goodtok {ln t : List Char} {rest : List (List Char)}
    (hs : skipLine (trimL ln) = false)
    (ht : secondLast (splitWs (trimL ln)) = some t)
    (hnum : numericTok t = true) :
    extractBandwidthTok (ln :: rest) = some t := by
  simp [extractBandwidthTok, hs, ht, hnum]

theorem spec_cons_skip {ln : List Char} {rest : List (List Char)}
    (hs : skipLine (trimL ln) = true) :
    specBandwidthTok (ln :: rest) = specBandwidthTok rest := by
  simp [specBandwidthTok, hs]

theorem spec_cons_nosecond {ln : List Char} {rest : List (List Char)}
    (hs : skipLine (trimL ln) = false)
    (hn : secondLast (splitWs (trimL ln)) = none) :
    specBandwidthTok (ln :: rest) = specBandwidthTok rest := by
  simp [specBandwidthTok, hs, hn]

theorem spec_cons_badtok {ln t : List Char} {rest : List (List Char)}
    (hs : skipLine (trimL ln) = false)
    (ht : secondLast (splitWs (trimL ln)) = some t)
    (hnum : numericTok t = false) :
    specBandwidthTok (ln :: rest) = specBandwidthTok rest := by
  simp [specBandwidthTok, hs, ht, hnum]

theorem spec_cons_goodtok {ln t : List Char} {rest : List (List Char)}
    (hs : skipLine (trimL ln) = false)
    (ht : secondLast (splitWs (trimL ln)) = some t)
    (hnum : numericTok t = true) :
    specBandwidthTok (ln :: rest) = some t := by
  simp [specBandwidthTok, hs, ht, hnum]

theorem extract_eq_spec :
    ∀ lines : List (List Char), extractBandwidthTok lines = specBandwidthTok lines
  | [] => rfl
  | ln :: rest => by
    have ih := extract_eq_spec rest
    cases hs : skipLine (trimL ln) with
    | true => rw [extract_cons_skip hs, ih, spec_cons_skip hs]
    | false =>
      rcases ht : secondLast (splitWs (trimL ln)) with _ | t
      · rw [extract_cons_nosecond hs ht, ih, spec_cons_nosecond hs ht]
      · cases hnum : numericTok t with
        | true => rw [extract_cons_goodtok hs ht hnum, spec_cons_goodtok hs ht hnum]
        | false => rw [extract_cons_badtok hs ht hnum, ih, spec_cons_badtok hs ht hnum]

/-! ### Claim C5: the bandwidth parser -/

/-- C5: the parse loop of run_nccl_test computes exactly the spec's
description — skip blank, comment and timestamp/header lines, take the first
remaining line whose second-to-last whitespace token is numeric — and the
returned bandwidth is the `float` conversion of exactly that token (`none`
when no such line exists). -/
theorem c5_parser_follows_spec (lines : List (List Char)) (out : List Char) :
    extractBandwidthTok lines = specBandwidthTok lines ∧
      parseBandwidth out = (specBandwidthTok (out.splitOn '\n')).bind pyFloatQ := by
  refine ⟨extract_eq_spec lines, ?_⟩
  unfold parseBandwidth
  rw [extract_eq_spec (out.splitOn '\n')]
  rcases specBandwidthTok (out.splitOn '\n') with _ | t <;> rfl

/-! ### Claim C10: accepted tokens always convert -/

theorem extract_numeric :
    ∀ (lines : List (List Char)) (t : List Char),
      extractBandwidthTok lines = some t → numericTok t = true
  | [], t, h => by cases h
  | ln :: rest, t, h => by
    cases hs : skipLine (trimL ln) with
    | true =>
      rw [extract_cons_skip hs] at h
      exact extract_numeric rest t h
    | false =>
      rcases ht : secondLast (splitWs (trimL ln)) with _ | u
      · rw [extract_cons_nosecond hs ht] at h
        exact extract_numeric rest t h
      · cases hnum : numericTok u with
        | true =>
          rw [extract_cons_goodtok hs ht hnum] at h
          rw [← Option.some.inj h]
          exact hnum
        | false =>
          rw [extract_cons_badtok hs ht hnum] at h
          exact extract_numeric rest t h

theorem splitAtDot_none : ∀ t : List Char, splitAtDot t = none → removeFirstDot t = t
  | [], _ => rfl
  | c :: cs, h => by
    unfold splitAtDot at h
    by_cases hc : c = '.'
    · rw [if_pos hc] at h
      cases h
    · rw [if_neg hc] at h
      unfold removeFirstDot
      rw [if_neg hc]
      congr 1
      apply splitAtDot_none
      rcases hsc : splitAtDot cs with _ | p
      · rfl
      · rw [hsc] at h
        simp at h

theorem splitAtDot_some :
    ∀ (t ip fp : List Char), splitAtDot t = some (ip, fp) →
      removeFirstDot t = ip ++ fp
  | [], _, _, h => by cases h
  | c :: cs, ip, fp, h => by
    unfold splitAtDot at h
    by_cases hc : c = '.'
    · rw [if_pos hc] at h
      obtain ⟨h1, h2⟩ := Prod.mk.injEq _ _ _ _ ▸ Option.some.inj h
      unfold removeFirstDot
      rw [if_pos hc, ← h1, ← h2]
      rfl
    · rw [if_neg hc] at h
      rcases hsc : splitAtDot cs with _ | p
      · rw [hsc] at h
        cases h
      · rw [hsc] at h
        rw [Option.map_some'] at h
        obtain ⟨h1, h2⟩ := Prod.mk.injEq _ _ _ _ ▸ Option.some.inj h
        unfold removeFirstDot
        rw [if_neg hc, splitAtDot_some cs p.1 p.2 (by rw [hsc]), ← h1, ← h2]
        rfl

theorem pyFloatQ_isSome_of_decimal (t : List Char) (hnum : numericTok t = true)
    (hdec : (removeFirstDot t).all Char.isDigit = true) :
    (pyFloatQ t).isSome = true := by
  unfold numericTok at hnum
  rw [Bool.and_eq_true] at hnum
  obtain ⟨hne, _⟩ := hnum
  unfold pyFloatQ
  rcases hs : splitAtDot t with _ | ⟨ip, fp⟩
  · rw [splitAtDot_none t hs] at hne hdec
    simp [hne, hdec]
  · rw [splitAtDot_some t ip fp hs] at hne hdec
    rw [List.all_append, Bool.and_eq_true] at hdec
    simp [hne, hdec.1, hdec.2]

/-- C10 (counterexample): the superscript digit '²' passes Python's
`isdigit`-based acceptance test, so a line whose second-to-last token is
'²' is accepted by the parse loop, yet `float` raises on it: the try block
ends in the ValueError the handler catches, so the handler is reachable
from the conversion of an accepted line. -/
theorem c10_unicode_digit_reaches_handler :
    extractBandwidthTok (("h1 h2 ² x").toList.splitOn '\n') = some ['²'] ∧
      numericTok ['²'] = true ∧
      pyFloatQ ['²'] = none ∧
      ncclTryBody (NcclOutcome.completed ("h1 h2 ² x").toList) =
        Except.error PyExc.valueError ∧
      runNcclTest (NcclOutcome.completed ("h1 h2 ² x").toList) =
        (none, true) := by
  refine ⟨by decide, by decide, by decide, by rfl, by rfl⟩

/-- C10 (amended): whenever the parse loop accepts a line, its
second-to-last token consists of Python-digit characters with at most one
decimal point; when those characters are all decimal digits the `float`
conversion of the token succeeds, but the test also accepts non-decimal
digit characters such as '²', on which `float` raises, so the ValueError
handler is reachable from the conversion of an accepted line. -/
theorem c10_decimal_token_converts (out t : List Char)
    (h : extractBandwidthTok (out.splitOn '\n') = some t)
    (hdec : (removeFirstDot t).all Char.isDigit = true) :
    numericTok t = true ∧ (pyFloatQ t).isSome = true := by
  have hnum := extract_numeric (out.splitOn '\n') t h
  exact ⟨hnum, pyFloatQ_isSome_of_decimal t hnum hdec⟩

/-- C10 (witness): the accepted data line of a two-host run yields the
all-decimal token 210.5, which is numeric and converts. -/
theorem c10_decimal_token_converts_witness :
    extractBandwidthTok (("host1 host2 8 210.5 0").toList.splitOn '\n') =
        some ("210.5").toList ∧
      (removeFirstDot ("210.5").toList).all Char.isDigit = true ∧
      numericTok ("210.5").toList = true ∧
      (pyFloatQ ("210.5").toList).isSome = true :=
  ⟨by decide, by decide,
    (c10_decimal_token_converts ("host1 host2 8 210.5 0").toList
      ("210.5").toList (by decide) (by decide)).1,
    (c10_decimal_token_converts ("host1 host2 8 210.5 0").toList
      ("210.5").toList (by decide) (by decide)).2⟩

end Nodenurse
